import Mathlib

/-!
Shallow embedding of the Vox voice-assistant front end (src/App.tsx and
src/unnamed/part_001 of the repository).

The mutable React state and refs of the `App` component become the fields of
`Vox.AppState`; each event handler of the source becomes a pure function from
state to state, paired with the list of external resource actions it performs
(stopping nodes/tracks, closing the session and the audio contexts, cancelling
the animation frame).  Clock readings (`ctx.currentTime`) and buffer durations
are rationals; audio nodes, tracks and contexts are identified by naturals.
-/

namespace Vox

/-- `ConnectionStatus` from src/unnamed/part_001:
`'disconnected' | 'connecting' | 'connected' | 'error'`. -/
inductive ConnectionStatus
  | disconnected
  | connecting
  | connected
  | error
deriving DecidableEq, Repr

/-- External side effects performed by the handlers on browser/SDK resources. -/
inductive Action
  | cancelRaf (id : Nat)
  | closeSession
  | stopTrack (t : Nat)
  | stopSource (node : Nat)
  | closeCtx (c : Nat)
deriving DecidableEq, Repr

/-- The mutable state of the `App` component: the `useState` cells
(`status`, `errorMessage`, `isSpeaking`, `intensity`, `isMuted`) and the
`useRef` cells (`inputAudioCtxRef`, `outputAudioCtxRef`, `streamRef`,
`sourcesRef`, `nextStartTimeRef`, `sessionRef`, `isMutedRef`, `rafRef`).
`sources` models the JS `Set` in insertion order. -/
structure AppState where
  status : ConnectionStatus
  errorMessage : Option String
  isSpeaking : Bool
  intensity : ℚ
  isMuted : Bool
  inputAudioCtx : Option Nat
  outputAudioCtx : Option Nat
  stream : Option (List Nat)
  sources : List Nat
  nextStartTime : ℚ
  session : Option Nat
  isMutedRef : Bool
  rafId : Option Nat
deriving DecidableEq, Repr

/-- The component's initial state: `useState('disconnected')`,
`useState(null)`, `useState(false)`, `useState(0)`, `useState(false)`,
`useRef(null)` for the resources, `useRef(new Set())`, `useRef(0)`,
`useRef(false)`, `useRef(null)`. -/
def initialState : AppState where
  status := .disconnected
  errorMessage := none
  isSpeaking := false
  intensity := 0
  isMuted := false
  inputAudioCtx := none
  outputAudioCtx := none
  stream := none
  sources := []
  nextStartTime := 0
  session := none
  isMutedRef := false
  rafId := none

/-- The `if (rafRef.current) cancelAnimationFrame(rafRef.current)` step of
`cleanup`; note the source never sets `rafRef.current = null`. -/
def rafActions (s : AppState) : List Action :=
  match s.rafId with
  | some id => [Action.cancelRaf id]
  | none => []

/-- `cleanup` (src/App.tsx lines 56-79): cancel the animation frame, close and
null the session, stop and null the capture stream's tracks, stop every active
source and clear the set, close and null both audio contexts, then reset
`status`, `isSpeaking`, `intensity`, `isMuted` and `isMutedRef`.  It does not
touch `errorMessage`, `nextStartTimeRef` or `rafRef`'s stored handle. -/
def cleanup (s : AppState) : AppState × List Action :=
  let sessActs := match s.session with
    | some _ => [Action.closeSession]
    | none => []
  let trackActs := match s.stream with
    | some ts => ts.map Action.stopTrack
    | none => []
  let srcActs := s.sources.map Action.stopSource
  let ctxActs :=
    (match s.inputAudioCtx with
      | some c => [Action.closeCtx c]
      | none => []) ++
    (match s.outputAudioCtx with
      | some c => [Action.closeCtx c]
      | none => [])
  ({ s with
      session := none
      stream := none
      sources := []
      inputAudioCtx := none
      outputAudioCtx := none
      status := .disconnected
      isSpeaking := false
      intensity := 0
      isMuted := false
      isMutedRef := false },
   rafActions s ++ sessActs ++ trackActs ++ srcActs ++ ctxActs)

/-- The message shown by the channel's `onerror` callback. -/
def onerrorMessage : String := "A connection error occurred. Please try again."

/-- `onerror` (src/App.tsx lines 188-192): set the user-visible error message,
then run `cleanup`. -/
def handleError (s : AppState) : AppState × List Action :=
  cleanup { s with errorMessage := some onerrorMessage }

/-- `onclose` (src/App.tsx lines 193-196): run `cleanup` only; no message. -/
def handleClose (s : AppState) : AppState × List Action :=
  cleanup s

/-- The first statements of `connect` (src/App.tsx lines 107-108):
`setStatus('connecting'); setErrorMessage(null)`. -/
def connectStart (s : AppState) : AppState :=
  { s with status := .connecting, errorMessage := none }

/-- The `catch` branch of `connect` (src/App.tsx lines 201-205): set the
error message from the thrown error, then run `cleanup`. -/
def connectFail (msg : String) (s : AppState) : AppState × List Action :=
  cleanup { s with errorMessage := some msg }

/-- `onopen` (src/App.tsx line 134-135): `setStatus('connected')`. -/
def handleOpen (s : AppState) : AppState :=
  { s with status := .connected }

/-- `toggleMute` (src/App.tsx lines 216-220): flip `isMuted` and write the
same value into `isMutedRef` synchronously. -/
def toggleMute (s : AppState) : AppState :=
  let newState := !s.isMuted
  { s with isMuted := newState, isMutedRef := newState }

/-- JS `Set.add`: append if not already a member (insertion order kept). -/
def setAdd (n : Nat) (l : List Nat) : List Nat :=
  if n ∈ l then l else l ++ [n]

/-- The audio branch of `onmessage` (src/App.tsx lines 152-179) for one
decoded chunk: `setIsSpeaking(true)`, raise the cursor to
`max(nextStartTime, ctx.currentTime)`, schedule the source at the cursor,
advance the cursor by the buffer's duration, and add the source to the active
set.  `clock` is the value of `ctx.currentTime` when the message is handled,
`dur` the decoded buffer's duration, `node` the fresh source node; the
returned rational is the time passed to `source.start`. -/
def handleAudio (clock dur : ℚ) (node : Nat) (s : AppState) : AppState × ℚ :=
  let start := max s.nextStartTime clock
  ({ s with
      isSpeaking := true
      nextStartTime := start + dur
      sources := setAdd node s.sources },
   start)

/-- The `'ended'` listener registered on each source (src/App.tsx lines
169-174): remove the node from the active set; if the set is now empty,
clear the speaking flag. -/
def handleEnded (node : Nat) (s : AppState) : AppState :=
  let rest := s.sources.erase node
  { s with
      sources := rest
      isSpeaking := if rest.length = 0 then false else s.isSpeaking }

/-- The interruption branch of `onmessage` (src/App.tsx lines 181-186):
stop every node in the active set, clear the set, reset the start-time
cursor to zero, clear the speaking flag. -/
def handleInterrupt (s : AppState) : AppState × List Action :=
  ({ s with sources := [], nextStartTime := 0, isSpeaking := false },
   s.sources.map Action.stopSource)

/-- A run of consecutive audio chunks through `handleAudio`, threading the
state and recording each chunk's scheduled start time.  Each list entry is
`(clock, dur, node)`: the output clock at delivery, the buffer duration and
the fresh node id. -/
def scheduleRun (s : AppState) : List (ℚ × ℚ × Nat) → AppState × List ℚ
  | [] => (s, [])
  | (clock, dur, node) :: rest =>
      let p := handleAudio clock dur node s
      let q := scheduleRun p.1 rest
      (q.1, p.2 :: q.2)

/-- The start times produced by the scheduler as a function of the cursor
alone: each chunk `(clock, dur)` starts at `max cursor clock` and the cursor
becomes that start plus `dur`. -/
def startTimes (cursor : ℚ) : List (ℚ × ℚ) → List ℚ
  | [] => []
  | (clock, dur) :: rest =>
      max cursor clock :: startTimes (max cursor clock + dur) rest

/-- Start times as the spec's gapless property words them: the first chunk
starts at the cursor and every successive chunk starts exactly at the
previous chunk's start plus the previous chunk's duration. -/
def cumStarts (cursor : ℚ) : List ℚ → List ℚ
  | [] => []
  | d :: rest => cursor :: cumStarts (cursor + d) rest

/-- Each chunk is delivered before the output clock passes the running
cursor: for every chunk, `clock ≤ cursor` at its delivery. -/
def clocksLag (cursor : ℚ) : List (ℚ × ℚ) → Prop
  | [] => True
  | (clock, dur) :: rest =>
      clock ≤ cursor ∧ clocksLag (max cursor clock + dur) rest

/-- Capture-path events: a captured audio block (identified by a natural) or
a user mute toggle. -/
inductive CaptureEvent
  | block (b : Nat)
  | toggle
deriving DecidableEq, Repr

/-- `onaudioprocess` (src/App.tsx lines 140-147): if `isMutedRef.current` is
set, return without sending; otherwise forward the block to
`session.sendRealtimeInput`.  The returned list holds the blocks sent. -/
def onaudioprocess (b : Nat) (s : AppState) : AppState × List Nat :=
  if s.isMutedRef then (s, []) else (s, [b])

/-- A run of the capture path over a sequence of captured blocks and mute
toggles, collecting the blocks forwarded to the session in order. -/
def captureRun (s : AppState) : List CaptureEvent → AppState × List Nat
  | [] => (s, [])
  | .block b :: rest =>
      let p := onaudioprocess b s
      let q := captureRun p.1 rest
      (q.1, p.2 ++ q.2)
  | .toggle :: rest => captureRun (toggleMute s) rest

/-- The forwarded blocks as the spec words them: exactly the blocks captured
while the mute flag is false, in capture order, threading the flag through
the toggles. -/
def forwardedBlocks (muted : Bool) : List CaptureEvent → List Nat
  | [] => []
  | .block b :: rest =>
      if muted then forwardedBlocks muted rest
      else b :: forwardedBlocks muted rest
  | .toggle :: rest => forwardedBlocks (!muted) rest

/-- Playback-path events while a session is connected: receipt of a decoded
audio chunk, the natural end of a node's playback, or an interruption
signal from the channel. -/
inductive PlayEvent
  | audio (clock dur : ℚ) (node : Nat)
  | ended (node : Nat)
  | interrupt

/-- One playback-path step (the state part of the corresponding handler). -/
def playStep (s : AppState) : PlayEvent → AppState
  | .audio clock dur node => (handleAudio clock dur node s).1
  | .ended node => handleEnded node s
  | .interrupt => (handleInterrupt s).1

/-- States of the playback subsystem reachable from the initial state by
audio, ended and interrupt events (no teardown). -/
inductive PlayReachable : AppState → Prop
  | init : PlayReachable initialState
  | step (s : AppState) (e : PlayEvent) :
      PlayReachable s → PlayReachable (playStep s e)

/-- Modelled from the spec: the per-sample conversion of `createPcmBlob`
(src/services/audioUtils, a file absent from the source tree; only the
imported name at src/App.tsx line 5 is visible).  Spec section 4.1: convert each
sample to 16-bit signed linear PCM, clamping to the 16-bit signed range
before truncation.  `ratTrunc` is truncation toward zero as JS integer
conversion performs it. -/
def ratTrunc (q : ℚ) : ℤ :=
  if q < 0 then ⌈q⌉ else ⌊q⌋

/-- Modelled from the spec: scale a unit-range sample to the 16-bit signed
scale, clamp to `[-32768, 32767]`, then truncate toward zero. -/
def createPcmBlobSample (x : ℚ) : ℤ :=
  ratTrunc (min 32767 (max (-32768) (x * 32768)))

/-! ## Theorems -/

/-- C2: an interruption signal, from any state of the active set and any
cursor value, stops every node in the active set, leaves the set empty,
sets the start-time cursor to exactly zero and clears the speaking flag. -/
theorem interrupt_clears_everything (s : AppState) :
    (handleInterrupt s).1.sources = [] ∧
    (handleInterrupt s).1.nextStartTime = 0 ∧
    (handleInterrupt s).1.isSpeaking = false ∧
    (handleInterrupt s).2 = s.sources.map Action.stopSource := by
  simp [handleInterrupt]

/-- C3 (counterexample): teardown does not reset the start-time cursor to
zero — from a state whose cursor is 5, `cleanup` leaves it at 5. -/
theorem cleanup_keeps_nonzero_cursor :
    (cleanup { initialState with nextStartTime := 5 }).1.nextStartTime = 5 ∧
    (5 : ℚ) ≠ 0 := by
  refine ⟨by decide, by norm_num⟩

/-- C3 (amended): teardown resets status, speaking flag, intensity, mute
flag and mute ref, empties the active set and releases the session, the
stream and both audio contexts, but it leaves the start-time cursor
unchanged rather than zeroing it. -/
theorem cleanup_resets_to_baseline_except_cursor (s : AppState) :
    (cleanup s).1.status = ConnectionStatus.disconnected ∧
    (cleanup s).1.isSpeaking = false ∧
    (cleanup s).1.intensity = 0 ∧
    (cleanup s).1.isMuted = false ∧
    (cleanup s).1.isMutedRef = false ∧
    (cleanup s).1.sources = [] ∧
    (cleanup s).1.session = none ∧
    (cleanup s).1.stream = none ∧
    (cleanup s).1.inputAudioCtx = none ∧
    (cleanup s).1.outputAudioCtx = none ∧
    (cleanup s).1.nextStartTime = s.nextStartTime := by
  simp [cleanup]

/-- C5 (counterexample): invoking teardown twice from a state with a
non-zero cursor and a registered animation-frame handle does not leave the
disconnected baseline (the cursor survives), and the second invocation
re-issues the animation-frame cancellation. -/
theorem cleanup_twice_not_baseline :
    (cleanup (cleanup { initialState with nextStartTime := 5, rafId := some 7 }).1).2 =
      [Action.cancelRaf 7] ∧
    (cleanup (cleanup { initialState with nextStartTime := 5, rafId := some 7 }).1).1 ≠
      initialState := by
  decide

/-- C5 (amended): teardown is idempotent as a state transformer — a second
`cleanup` yields the same state — and the second invocation performs no
resource-releasing effect (no stop or close; it only re-issues the no-op
animation-frame cancellation, since the handle is never cleared).  The
resulting state is the disconnected baseline except for the start-time
cursor, the error message and the animation-frame handle, which `cleanup`
leaves unchanged. -/
theorem cleanup_idempotent (s : AppState) :
    (cleanup (cleanup s).1).1 = (cleanup s).1 ∧
    (cleanup (cleanup s).1).2 = rafActions s ∧
    (cleanup s).1 = { initialState with
        nextStartTime := s.nextStartTime
        errorMessage := s.errorMessage
        rafId := s.rafId } := by
  refine ⟨?_, ?_, ?_⟩ <;> simp [cleanup, rafActions, initialState]

/-- C6: the channel-error handler sets the user-visible error message and
performs full teardown (landing on status `disconnected`), the
connection-setup failure path sets the thrown error's message, and the
channel-close handler performs exactly the same teardown while leaving the
error message unchanged. -/
theorem error_message_iff_error_or_setup_failure (s : AppState) (msg : String) :
    (handleError s).1.errorMessage = some onerrorMessage ∧
    (handleError s).1.status = ConnectionStatus.disconnected ∧
    (connectFail msg s).1.errorMessage = some msg ∧
    (connectFail msg s).1.status = ConnectionStatus.disconnected ∧
    (handleClose s).1.errorMessage = s.errorMessage ∧
    handleClose s = cleanup s := by
  refine ⟨?_, ?_, ?_, ?_, ?_, rfl⟩ <;> simp [handleError, connectFail, handleClose, cleanup]

/-- C10: teardown never writes the user-visible error message — `cleanup`
leaves it exactly as it was — and it is cleared (set to `none`) only when a
new connect attempt begins. -/
theorem cleanup_preserves_error_message (s : AppState) :
    (cleanup s).1.errorMessage = s.errorMessage ∧
    (connectStart s).errorMessage = none := by
  exact ⟨by simp [cleanup], by simp [connectStart]⟩

/-- C4: over any sequence of captured blocks and mute toggles, starting from
a state whose mute flag and mute ref agree (as they do in every state the
program produces: both start false and are always written together), the
blocks forwarded to the session are exactly those captured while the mute
flag is false, in capture order — dropped blocks are never replayed, and
each block is judged by the flag's live value at its capture time. -/
theorem capture_forwards_exactly_unmuted (s : AppState) (es : List CaptureEvent)
    (h : s.isMuted = s.isMutedRef) :
    (captureRun s es).2 = forwardedBlocks s.isMutedRef es := by
  induction es generalizing s with
  | nil => rfl
  | cons e rest ih =>
    cases e with
    | block b =>
      by_cases hm : s.isMutedRef
      · simp [captureRun, onaudioprocess, forwardedBlocks, hm, ih s h]
      · simp [captureRun, onaudioprocess, forwardedBlocks, hm, ih s h]
    | toggle =>
      have h2 : (toggleMute s).isMuted = (toggleMute s).isMutedRef := by
        simp [toggleMute]
      have h3 : (toggleMute s).isMutedRef = !s.isMutedRef := by
        simp [toggleMute, h]
      simp [captureRun, forwardedBlocks, ih (toggleMute s) h2, h3]

/-- C4 (witness): from the initial state, capturing block 1, muting,
capturing block 2, unmuting and capturing block 3 forwards exactly the
blocks captured unmuted. -/
theorem capture_forwards_witness :
    initialState.isMuted = initialState.isMutedRef ∧
    (captureRun initialState [CaptureEvent.block 1, CaptureEvent.toggle,
        CaptureEvent.block 2, CaptureEvent.toggle, CaptureEvent.block 3]).2 =
      forwardedBlocks initialState.isMutedRef [CaptureEvent.block 1, CaptureEvent.toggle,
        CaptureEvent.block 2, CaptureEvent.toggle, CaptureEvent.block 3] :=
  ⟨rfl, capture_forwards_exactly_unmuted initialState _ rfl⟩

/-- C8 (counterexample): the channel-error handler does not move the state
machine to `'error'` — from a connected state it lands on `'disconnected'`,
so the `'error'` member of `ConnectionStatus` is never assigned. -/
theorem error_status_not_entered_on_channel_error :
    (handleError (handleOpen (connectStart initialState))).1.status =
      ConnectionStatus.disconnected ∧
    ConnectionStatus.disconnected ≠ ConnectionStatus.error := by
  decide

/-- C8 (amended): the lifecycle transitions are
`disconnected → connecting → connected → disconnected`: a connect attempt
sets `connecting`, channel open sets `connected`, and a channel error — like
stop, close, or a setup failure — surfaces its user-visible message and then
tears down to `disconnected`; no operation ever assigns the declared
`'error'` member, which is unreachable. -/
theorem lifecycle_transitions (s : AppState) (msg : String) :
    (connectStart s).status = ConnectionStatus.connecting ∧
    (handleOpen s).status = ConnectionStatus.connected ∧
    (handleError s).1.status = ConnectionStatus.disconnected ∧
    (handleError s).1.errorMessage = some onerrorMessage ∧
    (handleClose s).1.status = ConnectionStatus.disconnected ∧
    (connectFail msg s).1.status = ConnectionStatus.disconnected ∧
    (connectStart s).status ≠ ConnectionStatus.error ∧
    (handleOpen s).status ≠ ConnectionStatus.error ∧
    (handleError s).1.status ≠ ConnectionStatus.error ∧
    (handleClose s).1.status ≠ ConnectionStatus.error ∧
    (connectFail msg s).1.status ≠ ConnectionStatus.error := by
  refine ⟨rfl, rfl, ?_, ?_, ?_, ?_, ?_, ?_, ?_, ?_, ?_⟩ <;>
    simp [connectStart, handleOpen, handleError, handleClose, connectFail, cleanup]

/-- Truncation toward zero stays within any integer interval containing the
input. -/
theorem ratTrunc_mem_Icc {lo hi : ℤ} {q : ℚ} (h1 : (lo : ℚ) ≤ q) (h2 : q ≤ (hi : ℚ)) :
    lo ≤ ratTrunc q ∧ ratTrunc q ≤ hi := by
  unfold ratTrunc
  split
  · constructor
    · calc lo = ⌈(lo : ℚ)⌉ := (Int.ceil_intCast lo).symm
        _ ≤ ⌈q⌉ := Int.ceil_le_ceil h1
    · exact Int.ceil_le.mpr h2
  · constructor
    · exact Int.le_floor.mpr h1
    · calc ⌊q⌋ ≤ ⌊(hi : ℚ)⌋ := Int.floor_le_floor h2
        _ = hi := Int.floor_intCast hi

/-- Truncation toward zero preserves nonnegativity. -/
theorem ratTrunc_nonneg {q : ℚ} (h : 0 ≤ q) : 0 ≤ ratTrunc q := by
  unfold ratTrunc
  rw [if_neg (not_lt.mpr h)]
  exact Int.floor_nonneg.mpr h

/-- Truncation toward zero preserves nonpositivity. -/
theorem ratTrunc_nonpos {q : ℚ} (h : q ≤ 0) : ratTrunc q ≤ 0 := by
  unfold ratTrunc
  split
  · exact Int.ceil_le.mpr (by exact_mod_cast h)
  · calc ⌊q⌋ ≤ ⌊(0 : ℚ)⌋ := Int.floor_le_floor h
      _ = 0 := Int.floor_zero

/-- C9: the sample-to-PCM conversion clamps to the 16-bit signed range
before truncation, so every output lies in `[-32768, 32767]`, no input of
either sign ever maps to a value of the opposite sign, and out-of-range
inputs saturate at the same-signed extreme instead of wrapping around. -/
theorem createPcmBlobSample_clamps (x : ℚ) :
    (-32768 ≤ createPcmBlobSample x ∧ createPcmBlobSample x ≤ 32767) ∧
    (0 ≤ x → 0 ≤ createPcmBlobSample x) ∧
    (x ≤ 0 → createPcmBlobSample x ≤ 0) ∧
    (1 ≤ x → createPcmBlobSample x = 32767) ∧
    (x ≤ -1 → createPcmBlobSample x = -32768) := by
  unfold createPcmBlobSample
  refine ⟨?_, ?_, ?_, ?_, ?_⟩
  · have h1 : ((-32768 : ℤ) : ℚ) ≤ min 32767 (max (-32768) (x * 32768)) := by
      have : ((-32768 : ℤ) : ℚ) = -32768 := by norm_num
      rw [this]
      exact le_min (by norm_num) (le_max_left _ _)
    have h2 : min 32767 (max (-32768) (x * 32768)) ≤ ((32767 : ℤ) : ℚ) := by
      have : ((32767 : ℤ) : ℚ) = 32767 := by norm_num
      rw [this]
      exact min_le_left _ _
    exact ratTrunc_mem_Icc h1 h2
  · intro hx
    apply ratTrunc_nonneg
    refine le_min (by norm_num) (le_max_of_le_right ?_)
    positivity
  · intro hx
    apply ratTrunc_nonpos
    refine min_le_of_right_le (max_le (by norm_num) ?_)
    exact mul_nonpos_of_nonpos_of_nonneg hx (by norm_num)
  · intro hx
    have hbig : (32767 : ℚ) ≤ x * 32768 := by nlinarith
    have hmax : max (-32768 : ℚ) (x * 32768) = x * 32768 := by
      apply max_eq_right
      linarith
    have hmin : min (32767 : ℚ) (max (-32768) (x * 32768)) = 32767 := by
      rw [hmax]
      exact min_eq_left hbig
    rw [hmin]
    unfold ratTrunc
    rw [if_neg (by norm_num)]
    norm_num
  · intro hx
    have hsmall : x * 32768 ≤ (-32768 : ℚ) := by nlinarith
    have hmax : max (-32768 : ℚ) (x * 32768) = -32768 := max_eq_left hsmall
    have hmin : min (32767 : ℚ) (max (-32768) (x * 32768)) = -32768 := by
      rw [hmax]
      apply min_eq_right
      norm_num
    rw [hmin]
    unfold ratTrunc
    rw [if_pos (by norm_num)]
    have hcast : ((-32768 : ℚ)) = ((-32768 : ℤ) : ℚ) := by norm_num
    rw [hcast, Int.ceil_intCast]

/-- C9 (witness): an out-of-range sample of value 2 stays nonnegative and
saturates at 32767. -/
theorem createPcmBlobSample_clamps_witness :
    (0 ≤ (2 : ℚ) ∧ 1 ≤ (2 : ℚ)) ∧
    0 ≤ createPcmBlobSample 2 ∧ createPcmBlobSample 2 = 32767 :=
  ⟨⟨by norm_num, by norm_num⟩,
   (createPcmBlobSample_clamps 2).2.1 (by norm_num),
   (createPcmBlobSample_clamps 2).2.2.2.1 (by norm_num)⟩

/-- Invariant of the playback subsystem: the speaking flag is set exactly
when the active set is nonempty, and the active set holds no duplicates. -/
def PlayInv (s : AppState) : Prop :=
  (s.isSpeaking = true ↔ s.sources ≠ []) ∧ s.sources.Nodup

/-- The initial state satisfies the playback invariant. -/
theorem playInv_initial : PlayInv initialState := by
  constructor <;> simp [initialState]

/-- Adding to the active set never leaves it empty. -/
theorem setAdd_ne_nil (n : Nat) (l : List Nat) : setAdd n l ≠ [] := by
  unfold setAdd
  split
  · exact List.ne_nil_of_mem (by assumption)
  · simp

/-- Adding to the active set preserves the no-duplicates property. -/
theorem setAdd_nodup (n : Nat) (l : List Nat) (h : l.Nodup) : (setAdd n l).Nodup := by
  unfold setAdd
  split
  · exact h
  next hn =>
    refine List.Nodup.append h (List.nodup_singleton n) ?_
    intro a ha hb
    rw [List.mem_singleton] at hb
    subst hb
    exact hn ha

/-- Every playback event preserves the playback invariant. -/
theorem playInv_step (s : AppState) (e : PlayEvent) (h : PlayInv s) :
    PlayInv (playStep s e) := by
  obtain ⟨hiff, hnd⟩ := h
  cases e with
  | audio clock dur node =>
    constructor
    · simp [playStep, handleAudio, setAdd_ne_nil]
    · simpa [playStep, handleAudio] using setAdd_nodup node s.sources hnd
  | ended node =>
    constructor
    · by_cases hr : s.sources.erase node = []
      · simp [playStep, handleEnded, hr]
      · have hlen : (s.sources.erase node).length ≠ 0 := by
          simpa [List.length_eq_zero] using hr
        have hsrc : s.sources ≠ [] := by
          intro h0
          apply hr
          simp [h0]
        have hspk : s.isSpeaking = true := hiff.mpr hsrc
        simp [playStep, handleEnded, hlen, hspk, hr]
    · simpa [playStep, handleEnded] using hnd.erase node
  | interrupt =>
    constructor <;> simp [playStep, handleInterrupt]

/-- Every reachable playback state satisfies the playback invariant. -/
theorem playReachable_inv (s : AppState) (h : PlayReachable s) : PlayInv s := by
  induction h with
  | init => exact playInv_initial
  | step s e _ ih => exact playInv_step s e ih

/-- C7: in every reachable playback state the speaking flag is set exactly
when the active set is nonempty; a node is gone from the set after its
ended handler runs (removal happens at most once); and any playback event
that clears a set speaking flag leaves the active set empty — emptiness is
the sole condition under which speaking goes false outside teardown. -/
theorem speaking_iff_active_set (s : AppState) (node : Nat) (e : PlayEvent)
    (h : PlayReachable s) :
    (s.isSpeaking = true ↔ s.sources ≠ []) ∧
    node ∉ (handleEnded node s).sources ∧
    (s.isSpeaking = true → (playStep s e).isSpeaking = false →
      (playStep s e).sources = []) := by
  have hinv := playReachable_inv s h
  refine ⟨hinv.1, ?_, ?_⟩
  · simp only [handleEnded]
    intro hmem
    exact ((List.Nodup.mem_erase_iff hinv.2).mp hmem).1 rfl
  · intro _ hnew
    have hinv2 := playInv_step s e hinv
    by_contra hne
    have hspk2 : (playStep s e).isSpeaking = true := hinv2.1.mpr hne
    rw [hnew] at hspk2
    exact Bool.false_ne_true hspk2

/-- C7 (witness): after one audio chunk is scheduled from the initial state,
the state is reachable, speaking holds with a nonempty set, and ending that
chunk's node empties the set and clears the flag. -/
theorem speaking_iff_active_set_witness :
    PlayReachable (playStep initialState (PlayEvent.audio 0 1 5)) ∧
    (((playStep initialState (PlayEvent.audio 0 1 5)).isSpeaking = true ↔
        (playStep initialState (PlayEvent.audio 0 1 5)).sources ≠ []) ∧
      5 ∉ (handleEnded 5 (playStep initialState (PlayEvent.audio 0 1 5))).sources ∧
      ((playStep initialState (PlayEvent.audio 0 1 5)).isSpeaking = true →
        (playStep (playStep initialState (PlayEvent.audio 0 1 5))
            (PlayEvent.ended 5)).isSpeaking = false →
        (playStep (playStep initialState (PlayEvent.audio 0 1 5))
            (PlayEvent.ended 5)).sources = [])) :=
  ⟨PlayReachable.step initialState (PlayEvent.audio 0 1 5) PlayReachable.init,
   speaking_iff_active_set (playStep initialState (PlayEvent.audio 0 1 5)) 5
     (PlayEvent.ended 5)
     (PlayReachable.step initialState (PlayEvent.audio 0 1 5) PlayReachable.init)⟩

/-- The start times of a scheduling run depend only on the cursor: a run of
`handleAudio` produces exactly `startTimes` of the state's cursor. -/
theorem scheduleRun_starts (s : AppState) (chunks : List (ℚ × ℚ × Nat)) :
    (scheduleRun s chunks).2 =
      startTimes s.nextStartTime (chunks.map fun c => (c.1, c.2.1)) := by
  induction chunks generalizing s with
  | nil => rfl
  | cons c rest ih =>
    obtain ⟨clock, dur, node⟩ := c
    simp only [scheduleRun, startTimes, List.map_cons]
    rw [ih]
    simp [handleAudio]

/-- Every start time produced from a cursor is at least that cursor. -/
theorem startTimes_head_ge (cursor : ℚ) (l : List (ℚ × ℚ)) :
    ∀ b ∈ (startTimes cursor l).head?, cursor ≤ b := by
  cases l with
  | nil => simp [startTimes]
  | cons c rest =>
    obtain ⟨clock, dur⟩ := c
    simp [startTimes]

/-- With nonnegative durations the scheduled start times never decrease. -/
theorem startTimes_chain (cursor : ℚ) (l : List (ℚ × ℚ))
    (h : ∀ c ∈ l, 0 ≤ c.2) :
    List.Chain' (· ≤ ·) (startTimes cursor l) := by
  induction l generalizing cursor with
  | nil => simp [startTimes]
  | cons c rest ih =>
    obtain ⟨clock, dur⟩ := c
    have hdur : 0 ≤ dur := h (clock, dur) (List.mem_cons_self _ _)
    have hrest : ∀ d ∈ rest, 0 ≤ d.2 := fun d hd => h d (List.mem_cons_of_mem _ hd)
    rw [startTimes]
    refine List.chain'_cons'.mpr ⟨?_, ih (max cursor clock + dur) hrest⟩
    intro b hb
    have hge := startTimes_head_ge (max cursor clock + dur) rest b hb
    linarith

/-- When every chunk is delivered before the clock passes the cursor, each
chunk starts exactly at the previous chunk's start plus its duration. -/
theorem startTimes_gapless (cursor : ℚ) (l : List (ℚ × ℚ)) (h : clocksLag cursor l) :
    startTimes cursor l = cumStarts cursor (l.map Prod.snd) := by
  induction l generalizing cursor with
  | nil => rfl
  | cons c rest ih =>
    obtain ⟨clock, dur⟩ := c
    obtain ⟨hc, hrest⟩ := h
    have hm : max cursor clock = cursor := max_eq_left hc
    rw [hm] at hrest
    simp only [startTimes, cumStarts, List.map_cons, hm]
    rw [ih (cursor + dur) hrest]

/-- C1 (amended): every delivered chunk is scheduled at
`max (cursor, clock)` with the cursor then advanced by its duration
(`scheduleRun` equals `startTimes` of the cursor); with nonnegative
durations the scheduled start times are non-decreasing; and whenever each
chunk is delivered before the output clock passes the cursor, every
successive chunk's start equals the previous chunk's start plus the
previous chunk's duration. -/
theorem schedule_starts_gapless (s : AppState) (chunks : List (ℚ × ℚ × Nat))
    (hdur : ∀ c ∈ chunks, 0 ≤ c.2.1) :
    (scheduleRun s chunks).2 =
      startTimes s.nextStartTime (chunks.map fun c => (c.1, c.2.1)) ∧
    List.Chain' (· ≤ ·) (scheduleRun s chunks).2 ∧
    (clocksLag s.nextStartTime (chunks.map fun c => (c.1, c.2.1)) →
      (scheduleRun s chunks).2 =
        cumStarts s.nextStartTime (chunks.map fun c => c.2.1)) := by
  have hb := scheduleRun_starts s chunks
  have hmap : ∀ c ∈ chunks.map (fun c => (c.1, c.2.1)), 0 ≤ c.2 := by
    intro c hc
    obtain ⟨a, ha, rfl⟩ := List.mem_map.mp hc
    exact hdur a ha
  refine ⟨hb, ?_, ?_⟩
  · rw [hb]
    exact startTimes_chain _ _ hmap
  · intro hlag
    rw [hb, startTimes_gapless _ _ hlag]
    congr 1
    simp [List.map_map]

/-- C1 (witness): from the initial state, two one-second chunks both
delivered at clock 0 are scheduled gaplessly. -/
theorem schedule_starts_gapless_witness :
    (∀ c ∈ ([((0 : ℚ), (1 : ℚ), 1), ((0 : ℚ), (1 : ℚ), 2)] : List (ℚ × ℚ × Nat)),
        0 ≤ c.2.1) ∧
    ((scheduleRun initialState
          [((0 : ℚ), (1 : ℚ), 1), ((0 : ℚ), (1 : ℚ), 2)]).2 =
        startTimes initialState.nextStartTime
          (([((0 : ℚ), (1 : ℚ), 1), ((0 : ℚ), (1 : ℚ), 2)] : List (ℚ × ℚ × Nat)).map
            fun c => (c.1, c.2.1)) ∧
      List.Chain' (· ≤ ·)
        (scheduleRun initialState
          [((0 : ℚ), (1 : ℚ), 1), ((0 : ℚ), (1 : ℚ), 2)]).2 ∧
      (clocksLag initialState.nextStartTime
          (([((0 : ℚ), (1 : ℚ), 1), ((0 : ℚ), (1 : ℚ), 2)] : List (ℚ × ℚ × Nat)).map
            fun c => (c.1, c.2.1)) →
        (scheduleRun initialState
            [((0 : ℚ), (1 : ℚ), 1), ((0 : ℚ), (1 : ℚ), 2)]).2 =
          cumStarts initialState.nextStartTime
            (([((0 : ℚ), (1 : ℚ), 1), ((0 : ℚ), (1 : ℚ), 2)] : List (ℚ × ℚ × Nat)).map
              fun c => c.2.1))) :=
  ⟨by norm_num, schedule_starts_gapless initialState _ (by norm_num)⟩

/-- C1 (counterexample): a chunk delivered after the output clock has
passed the cursor starts at the clock, not at the previous start plus the
previous duration — with chunk 1 (duration 1) delivered at clock 0 and
chunk 2 delivered at clock 5, the starts are 0 and 5, not 0 and 1. -/
theorem schedule_gap_when_clock_overtakes :
    (scheduleRun initialState [((0 : ℚ), (1 : ℚ), 1), ((5 : ℚ), (1 : ℚ), 2)]).2 =
      [0, 5] ∧
    cumStarts 0 [1, 1] = ([0, 1] : List ℚ) ∧
    ([0, 5] : List ℚ) ≠ [0, 1] := by
  refine ⟨?_, ?_, ?_⟩
  · simp [scheduleRun, handleAudio, initialState, setAdd]
  · simp [cumStarts]
  · simp only [ne_eq, List.cons.injEq]
    norm_num

end Vox
